import Mathlib

/-!
Verification of the diptych-composition core of `scripts/gradio_demo.py`.

The file embeds the `infer` function's deterministic logic in Lean:
image normalization (width-512 rescale with height floored to a multiple
of 8), diptych composition and mask construction, instruction templating,
seed resolution, right-half cropping, and the index-based save step.

Python `float` arithmetic (the `512 / width` scale and the height product)
is modelled faithfully as IEEE-754 binary64: rationals rounded to 53
significant bits with round-to-nearest, ties-to-even.  Integer `/` on
Python ints and `int * float` each incur one correctly-rounded operation,
which is exactly what CPython performs for values in the normal range.
-/

namespace ICEdit

/-! ## IEEE-754 binary64 model for Python float arithmetic -/

/-- Round a rational to the nearest integer, ties to even
(the IEEE-754 default rounding of a significand). -/
def rne (x : ℚ) : ℤ :=
  if x - ⌊x⌋ < 1/2 then ⌊x⌋
  else if 1/2 < x - ⌊x⌋ then ⌊x⌋ + 1
  else if ⌊x⌋ % 2 = 0 then ⌊x⌋ else ⌊x⌋ + 1

/-- Round a nonnegative rational in the binary64 normal range to the nearest
representable double: 53 significant bits, round-to-nearest, ties-to-even. -/
def rnd (q : ℚ) : ℚ :=
  if q = 0 then 0
  else (rne (q * 2 ^ ((52 : ℤ) - Int.log 2 q)) : ℚ) * 2 ^ (Int.log 2 q - 52)

/-- Python `int(x)`: truncation toward zero. -/
def pyInt (x : ℚ) : ℤ := if 0 ≤ x then ⌊x⌋ else -⌊-x⌋

/-! ## PIL image model

An image is its pixel dimensions together with a total pixel function
(RGB triples); reads outside the raster are never relied upon by the
theorems.  A mask is a single-channel raster. -/

structure PILImage where
  width : ℕ
  height : ℕ
  pixel : ℕ → ℕ → ℕ × ℕ × ℕ

structure MaskImage where
  width : ℕ
  height : ℕ
  pixel : ℕ → ℕ → ℕ

/-- Model of `Image.new("RGB", (w, h))`: a black image of the given size. -/
def imageNew (w h : ℕ) : PILImage := ⟨w, h, fun _ _ => (0, 0, 0)⟩

/-- Model of `image.resize((w, h))`.  Pillow returns the image unchanged (a copy)
when the target size equals the current size; otherwise pixel content comes
from the resampling filter, which is external library code, modelled here
by nearest-neighbour sampling.  No theorem depends on the resampled
content, only on the short-circuit and on the dimensions. -/
def resize (img : PILImage) (w h : ℕ) : PILImage :=
  if img.width = w ∧ img.height = h then img
  else ⟨w, h, fun x y => img.pixel (x * img.width / w) (y * img.height / h)⟩

/-- Model of `image.convert("RGB")`: the model carries RGB triples already, so the
mode conversion is the identity on the raster. -/
def convertRGB (img : PILImage) : PILImage := img

/-- Model of `base.paste(img, (0, 0))`: overlay `img` at the origin. -/
def paste (base img : PILImage) : PILImage :=
  ⟨base.width, base.height, fun x y =>
    if x < img.width ∧ y < img.height then img.pixel x y else base.pixel x y⟩

/-- Lines 68-70: `np.zeros((height, width*2), dtype=np.uint8)` followed by
`mask_array[:, width:] = 255`, viewed as a PIL image of size
`(width*2, height)`. -/
def maskFromArray (width height : ℕ) : MaskImage :=
  ⟨width * 2, height, fun x _ => if width ≤ x then 255 else 0⟩

/-- Model of `image.crop((left, upper, right, lower))` for an in-bounds box. -/
def crop (img : PILImage) (left upper right lower : ℕ) : PILImage :=
  ⟨right - left, lower - upper, fun x y => img.pixel (x + left) (y + upper)⟩

/-! ## The embedded core of `infer` -/

/-- Line 21: `MAX_SEED = np.iinfo(np.int32).max`. -/
def MAX_SEED : ℕ := 2147483647

/-- Line 58 of the source: `int(image.size[1] * scale)` where
`scale = 512 / image.size[0]`.  Both the division and the int-by-float
product are single correctly-rounded binary64 operations; the int operand
is itself converted to a double first. -/
def scaledHeightF (w h : ℕ) : ℕ :=
  (pyInt (rnd (rnd (h : ℚ) * rnd ((512 : ℚ) / (w : ℚ))))).toNat

/-- Lines 54-61: if the width is not 512, rescale to width 512 with the
proportional height floored to a multiple of 8, and emit the resize
warning; otherwise leave the image untouched.  The Boolean records whether
the warning was printed. -/
def normalizeImage (img : PILImage) : PILImage × Bool :=
  if img.width ≠ 512 then
    (resize img 512 (scaledHeightF img.width img.height / 8 * 8), true)
  else (img, false)

/-- Lines 63-70 plus the pipeline dimensions of lines 80-81: convert to
RGB, record `width, height = image.size`, re-resize to
`(512, int(512 * height / width))`, build the side-by-side composite and
the right-half mask.  Returns
`(combined_image, mask, width*2, height)` — the last two being the
`width=` and `height=` arguments later passed to the pipeline. -/
def composeStep (image0 : PILImage) : PILImage × MaskImage × ℕ × ℕ :=
  let image := convertRGB image0
  let width := image.width
  let height := image.height
  let image2 := resize image 512 ((pyInt (rnd (((512 * height : ℕ) : ℚ) / (width : ℚ)))).toNat)
  let combined := paste (imageNew (width * 2) height) image2
  let mask := maskFromArray width height
  (combined, mask, width * 2, height)

/-- The composite/mask/pipeline-dimension bundle produced by `infer` for a
given uploaded image.  The `width` and `height` parameters mirror the
`infer` arguments of lines 33-34; line 64 overwrites both with the
normalized image's size before they are ever read. -/
def infer_prep (edit_images : PILImage) (width height : ℕ) : PILImage × MaskImage × ℕ × ℕ :=
  composeStep (normalizeImage edit_images).1

/-- Line 71: the f-string instruction template. -/
def templateSentence : String :=
  "A diptych with two side-by-side images of the same scene. On the right, the scene is exactly the same as on the left but "

/-- Line 71: `instruction = f'...but {prompt}'`. -/
def buildInstruction (prompt : String) : String :=
  templateSentence ++ prompt

/-- The empty prompt, accepted verbatim by the template. -/
def emptyPrompt : String := ""

/-- Lines 73-74: `if randomize_seed: seed = random.randint(0, MAX_SEED)`.
`draw` is the value produced by `random.randint(0, MAX_SEED)`, which by
the contract of `random.randint` lies in `[0, MAX_SEED]`. -/
def resolveSeed (seed : ℕ) (randomize_seed : Bool) (draw : ℕ) : ℕ :=
  if randomize_seed then draw else seed

/-- Lines 87-88: `w, h = image.size; image = image.crop((w//2, 0, w, h))`. -/
def cropRightHalf (image : PILImage) : PILImage :=
  crop image (image.width / 2) 0 image.width image.height

/-- Line 90: `os.makedirs(output_dir, exist_ok=True)`.  The output
directory is modelled as `none` when absent and `some entries` when
present; creating it when absent yields an empty entry list. -/
def makedirs (dir : Option (List String)) : List String := dir.getD []

/-- Line 93's filename: `f"{output_dir}/result_{index}.png"`. -/
def resultName (index : ℕ) : String :=
  "result_" ++ toString index ++ ".png"

/-- Model of `image.save(path)`: writing a file adds its name to the directory
(overwriting in place if the name already exists). -/
def saveImage (entries : List String) (name : String) : List String :=
  if name ∈ entries then entries else entries ++ [name]

/-- Lines 90-93: ensure the directory exists, count its entries with
`len(os.listdir(output_dir))`, and save under `result_{index}.png`.
Returns the directory contents after the save and the chosen filename. -/
def saveStep (dir : Option (List String)) : List String × String :=
  let entries := makedirs dir
  let index := entries.length
  let name := resultName index
  (saveImage entries name, name)

/-- The keyword arguments of the pipeline call on lines 76-85. -/
structure PipeArgs where
  prompt : String
  image : PILImage
  mask_image : MaskImage
  height : ℕ
  width : ℕ
  guidance_scale : ℚ
  num_inference_steps : ℕ
  seed : ℕ

/-- The three fallible external collaborators of `infer`:
`FluxFillPipeline.from_pretrained` (line 44), `load_lora_weights`
(line 45), and the pipeline call itself (lines 76-85).  `E` is the type of
uncaught faults, `P` the opaque pipeline handle. -/
structure Externals (E P : Type) where
  from_pretrained : Except E P
  load_lora_weights : P → Except E P
  pipeCall : P → PipeArgs → Except E PILImage

/-- Lines 90-95 on the all-successful path: crop the right half, ensure
the output directory, save under the counted index, and return the image
with the resolved seed. -/
def inferSave {E : Type} (dir : Option (List String)) (image : PILImage) (seedv : ℕ) :
    Option (List String) × Except E (PILImage × ℕ) :=
  (some (saveImage (makedirs dir) (resultName (makedirs dir).length)),
    Except.ok (cropRightHalf image, seedv))

/-- Lines 76-95 given a constructed, LoRA-loaded pipeline: exactly one
pipeline call; a fault is returned as the outcome with the directory
untouched, success proceeds to crop-and-save. -/
def inferCall {E P : Type} (ext : Externals E P) (pipe : P) (args : PipeArgs)
    (dir : Option (List String)) : Option (List String) × Except E (PILImage × ℕ) :=
  match ext.pipeCall pipe args with
  | .error e => (dir, .error e)
  | .ok image => inferSave dir image args.seed

/-- Line 45: `pipe.load_lora_weights(lora_path)`, then the pipeline call. -/
def inferLoaded {E P : Type} (ext : Externals E P) (pipe : P) (args : PipeArgs)
    (dir : Option (List String)) : Option (List String) × Except E (PILImage × ℕ) :=
  match ext.load_lora_weights pipe with
  | .error e => (dir, .error e)
  | .ok pipe2 => inferCall ext pipe2 args dir

/-- The pipeline keyword arguments assembled by lines 63-84: instruction,
composite, mask, the overwritten dimensions, pass-through sampling
parameters, and the resolved seed. -/
def inferArgs (edit_images : PILImage) (prompt : String) (seed : ℕ)
    (randomize_seed : Bool) (width height : ℕ) (guidance_scale : ℚ)
    (num_inference_steps draw : ℕ) : PipeArgs :=
  ⟨buildInstruction prompt,
    (infer_prep edit_images width height).1,
    (infer_prep edit_images width height).2.1,
    (infer_prep edit_images width height).2.2.2,
    (infer_prep edit_images width height).2.2.1,
    guidance_scale, num_inference_steps,
    resolveSeed seed randomize_seed draw⟩

/-- The whole of `infer` (lines 44-95) with its external calls abstracted:
construct the pipeline, load the LoRA, normalize and compose, resolve the
seed, call the pipeline, crop the right half, and save.  Returns the
output directory contents after the call together with either the fault
(propagated uncaught, exactly as a Python exception unwinds) or the
returned `(image, seed)` pair.  There is no handler and no retry: each
external operation is consulted at most once, and the directory is only
touched on the all-successful path. -/
def infer {E P : Type} (ext : Externals E P) (edit_images : PILImage) (prompt : String)
    (seed : ℕ) (randomize_seed : Bool) (width height : ℕ)
    (guidance_scale : ℚ) (num_inference_steps : ℕ)
    (draw : ℕ) (dir : Option (List String)) :
    Option (List String) × Except E (PILImage × ℕ) :=
  match ext.from_pretrained with
  | .error e => (dir, .error e)
  | .ok pipe =>
    inferLoaded ext pipe
      (inferArgs edit_images prompt seed randomize_seed width height
        guidance_scale num_inference_steps draw) dir

/-! ## Concrete inputs used by counterexamples and witnesses -/

/-- A 49 × 49 source image (uniform black). -/
def ex49 : PILImage := ⟨49, 49, fun _ _ => (0, 0, 0)⟩

/-- A 512 × 7 source image: width already 512, height not a multiple
of 8. -/
def ex512x7 : PILImage := ⟨512, 7, fun _ _ => (0, 0, 0)⟩

/-- A 512 × 16 image, e.g. a normalized image. -/
def ex512x16 : PILImage := ⟨512, 16, fun x y => (x % 256, y % 256, 7)⟩

/-- A 1024 × 10 source image: aspect ratio above 64. -/
def ex1024x10 : PILImage := ⟨1024, 10, fun _ _ => (1, 2, 3)⟩

/-- A 4 × 2 stand-in for a pipeline output of size `(2W, H)` with `W = 2`,
`H = 2`, whose halves are distinguishable. -/
def exOut4x2 : PILImage := ⟨4, 2, fun x y => (x, y, 9)⟩

/-- External collaborators whose pipeline construction fails (e.g. a bad
model path), used to exercise the fault path of `infer`. -/
def extFail : Externals ℕ Unit :=
  ⟨Except.error 7, fun _ => Except.ok (), fun _ _ => Except.ok (imageNew 0 0)⟩

/-! ## General lemmas about the binary64 model -/

theorem abs_rne_sub_le (x : ℚ) : |(rne x : ℚ) - x| ≤ 1/2 := by
  have h1 := Int.floor_le x
  have h2 := Int.lt_floor_add_one x
  unfold rne
  split_ifs with hA hB hC <;>
    (rw [abs_le]; push_cast; constructor <;> linarith)

theorem rne_intCast (m : ℤ) : rne (m : ℚ) = m := by
  unfold rne
  rw [Int.floor_intCast, if_pos (by rw [sub_self]; norm_num)]

theorem rnd_zero : rnd 0 = 0 := by
  simp [rnd]

theorem abs_rnd_sub_le {q : ℚ} (hq : 0 ≤ q) : |rnd q - q| ≤ q / 2 ^ 53 := by
  rcases hq.eq_or_lt with h | h
  · rw [← h, rnd_zero]
    norm_num
  · have hne : q ≠ 0 := h.ne'
    have hpow : (2:ℚ) ^ Int.log 2 q ≤ q := Int.zpow_log_le_self (by norm_num) h
    have h2ne : (2:ℚ) ≠ 0 := by norm_num
    have key : rnd q - q
        = ((rne (q * 2 ^ ((52:ℤ) - Int.log 2 q)) : ℚ) - q * 2 ^ ((52:ℤ) - Int.log 2 q))
          * 2 ^ (Int.log 2 q - 52) := by
      rw [rnd, if_neg hne, sub_mul, mul_assoc, ← zpow_add₀ h2ne]
      norm_num
    have hzpos : (0:ℚ) < 2 ^ (Int.log 2 q - 52) := zpow_pos (by norm_num) _
    rw [key, abs_mul, abs_of_pos hzpos]
    have step1 : |(rne (q * 2 ^ ((52:ℤ) - Int.log 2 q)) : ℚ) - q * 2 ^ ((52:ℤ) - Int.log 2 q)|
        * 2 ^ (Int.log 2 q - 52) ≤ (1/2) * 2 ^ (Int.log 2 q - 52) :=
      mul_le_mul_of_nonneg_right (abs_rne_sub_le _) hzpos.le
    refine step1.trans ?_
    have e1 : (1/2 : ℚ) * 2 ^ (Int.log 2 q - 52) = 2 ^ (Int.log 2 q - 53) := by
      rw [show Int.log 2 q - 53 = (-1) + (Int.log 2 q - 52) by ring, zpow_add₀ h2ne]
      norm_num
    rw [e1, show Int.log 2 q - 53 = Int.log 2 q + (-53) by ring, zpow_add₀ h2ne]
    rw [div_eq_mul_inv, show ((-53:ℤ)) = -((53:ℕ):ℤ) by norm_num, zpow_neg, zpow_natCast]
    exact mul_le_mul_of_nonneg_right hpow (by positivity)

theorem rnd_nonneg {q : ℚ} (hq : 0 ≤ q) : 0 ≤ rnd q := by
  have h := abs_rnd_sub_le hq
  rw [abs_le] at h
  have hd : q / 2 ^ 53 ≤ q := by
    apply div_le_self hq
    norm_num
  linarith [h.1]

theorem rnd_natCast {n : ℕ} (hn : n ≤ 2 ^ 52) : rnd (n : ℚ) = n := by
  rcases Nat.eq_zero_or_pos n with rfl | hpos
  · simp [rnd]
  · have hne : ((n:ℚ)) ≠ 0 := by positivity
    have hlog : Int.log 2 ((n:ℚ)) = Nat.log 2 n := Int.log_natCast 2 n
    have hle : Nat.log 2 n ≤ 52 := by
      have hlt : n < 2 ^ 53 := lt_of_le_of_lt hn (by norm_num)
      have := Nat.log_lt_of_lt_pow hpos.ne' hlt
      omega
    have hk : (52:ℤ) - Int.log 2 ((n:ℚ)) = ((52 - Nat.log 2 n : ℕ) : ℤ) := by
      rw [hlog]
      omega
    have hX : (n:ℚ) * 2 ^ ((52:ℤ) - Int.log 2 ((n:ℚ)))
        = ((n * 2 ^ (52 - Nat.log 2 n) : ℕ) : ℚ) := by
      rw [hk, zpow_natCast]
      push_cast
      ring
    have hrne : rne ((n * 2 ^ (52 - Nat.log 2 n) : ℕ) : ℚ)
        = ((n * 2 ^ (52 - Nat.log 2 n) : ℕ) : ℤ) := by
      have h := rne_intCast ((n * 2 ^ (52 - Nat.log 2 n) : ℕ) : ℤ)
      rwa [Int.cast_natCast] at h
    have hlog52 : Int.log 2 ((n:ℚ)) - 52 = -((52 - Nat.log 2 n : ℕ) : ℤ) := by
      rw [hlog]
      omega
    rw [rnd, if_neg hne, hX, hrne, hlog52, zpow_neg, zpow_natCast]
    push_cast
    rw [mul_assoc, mul_inv_cancel₀ (by positivity), mul_one]

theorem pyInt_of_nonneg {x : ℚ} (h : 0 ≤ x) : pyInt x = ⌊x⌋ := if_pos h

/-- The float-computed height of line 58 sits at or one below the exact
truncated proportional height `512 * h / w`: the two roundings (the scale
quotient and the product) lose less than one unit for any image of
realistic size. -/
theorem scaledHeightF_bounds (w h : ℕ) (hw : 0 < w) (hhB : h ≤ 2 ^ 24) :
    scaledHeightF w h ≤ 512 * h / w ∧ 512 * h / w ≤ scaledHeightF w h + 1 := by
  have hW : (0:ℚ) < (w:ℚ) := by exact_mod_cast hw
  have hW1 : (1:ℚ) ≤ (w:ℚ) := by exact_mod_cast hw
  have hh : (0:ℚ) ≤ (h:ℚ) := by positivity
  have hhQ : ((h:ℚ)) ≤ 2 ^ 24 := by exact_mod_cast hhB
  set q : ℚ := (512:ℚ) / (w:ℚ) with hqdef
  have hq0 : 0 ≤ q := by positivity
  set s : ℚ := rnd q with hsdef
  have hs := abs_rnd_sub_le hq0
  have hs0 : 0 ≤ s := rnd_nonneg hq0
  have hrndh : rnd ((h:ℚ)) = (h:ℚ) := rnd_natCast (hhB.trans (by norm_num))
  set p : ℚ := (h:ℚ) * s with hpdef
  have hp0 : 0 ≤ p := mul_nonneg hh hs0
  set r : ℚ := rnd p with hrdef
  have hr := abs_rnd_sub_le hp0
  have hr0 : 0 ≤ r := rnd_nonneg hp0
  have hqW : q * (w:ℚ) = 512 := div_mul_cancel₀ _ hW.ne'
  have hsW : |s * (w:ℚ) - 512| ≤ 512 / 2 ^ 53 := by
    calc |s * (w:ℚ) - 512| = |s - q| * |(w:ℚ)| := by
          rw [← abs_mul, sub_mul, hqW]
      _ = |s - q| * (w:ℚ) := by rw [abs_of_pos hW]
      _ ≤ (q / 2 ^ 53) * (w:ℚ) := mul_le_mul_of_nonneg_right hs hW.le
      _ = 512 / 2 ^ 53 := by rw [div_mul_eq_mul_div, hqW]
  have hpW : |p * (w:ℚ) - 512 * h| ≤ 512 * h / 2 ^ 53 := by
    have hps : p * (w:ℚ) - 512 * h = (h:ℚ) * (s * w - 512) := by
      rw [hpdef]; ring
    rw [hps, abs_mul, abs_of_nonneg hh]
    calc (h:ℚ) * |s * (w:ℚ) - 512| ≤ (h:ℚ) * (512 / 2 ^ 53) :=
          mul_le_mul_of_nonneg_left hsW hh
      _ = 512 * h / 2 ^ 53 := by ring
  have hpWle : p * (w:ℚ) ≤ 512 * h + 512 * h / 2 ^ 53 := by
    have := (abs_le.1 hpW).2
    linarith
  have hrW : |r * (w:ℚ) - p * (w:ℚ)| ≤ (512 * h + 512 * h / 2 ^ 53) / 2 ^ 53 := by
    have h1 : r * (w:ℚ) - p * (w:ℚ) = (r - p) * w := by ring
    rw [h1, abs_mul, abs_of_pos hW]
    calc |r - p| * (w:ℚ) ≤ (p / 2 ^ 53) * (w:ℚ) := mul_le_mul_of_nonneg_right hr hW.le
      _ = (p * w) / 2 ^ 53 := by ring
      _ ≤ (512 * h + 512 * h / 2 ^ 53) / 2 ^ 53 := by gcongr
  have hrWabs : |r * (w:ℚ) - 512 * h| < 1 := by
    have h1 := abs_le.1 hrW
    have h2 := abs_le.1 hpW
    rw [abs_lt]
    constructor <;> nlinarith
  -- the exact quotient and its defining inequalities
  have hdm := Nat.div_add_mod (512 * h) w
  have hml := Nat.mod_lt (512 * h) hw
  have hE1 : 512 * h + 1 ≤ (512 * h / w + 1) * w := by
    calc 512 * h + 1 = w * (512 * h / w) + (512 * h) % w + 1 := by rw [hdm]
      _ ≤ w * (512 * h / w) + w := by omega
      _ = (512 * h / w + 1) * w := by ring
  have hE2 : (512 * h / w) * w ≤ 512 * h := Nat.div_mul_le_self _ _
  have hE1Q : 512 * (h:ℚ) + 1 ≤ (((512 * h / w : ℕ):ℚ) + 1) * w := by
    exact_mod_cast hE1
  have hE2Q : ((512 * h / w : ℕ):ℚ) * w ≤ 512 * (h:ℚ) := by
    exact_mod_cast hE2
  have habs := abs_lt.1 hrWabs
  -- upper bound: the float floor never exceeds the exact quotient
  have hub : (pyInt r).toNat ≤ 512 * h / w := by
    have hrlt : r < ((512 * h / w : ℕ):ℚ) + 1 := by
      have hrw : r * (w:ℚ) < (((512 * h / w : ℕ):ℚ) + 1) * w := by linarith
      exact lt_of_mul_lt_mul_right (by linarith) hW.le
    have hfl : ⌊r⌋ < ((512 * h / w : ℕ):ℤ) + 1 := by
      rw [Int.floor_lt]
      push_cast
      exact hrlt
    have hle : ⌊r⌋ ≤ ((512 * h / w : ℕ):ℤ) := Int.lt_add_one_iff.mp hfl
    rw [pyInt_of_nonneg hr0]
    exact Int.toNat_le.mpr hle
  -- lower bound: it is at most one below
  have hlb : 512 * h / w ≤ (pyInt r).toNat + 1 := by
    have hrge : (((512 * h / w : ℕ):ℚ) - 1) ≤ r := by
      have hrw : (((512 * h / w : ℕ):ℚ) - 1) * w ≤ r * (w:ℚ) := by
        have : (((512 * h / w : ℕ):ℚ) - 1) * w = ((512 * h / w : ℕ):ℚ) * w - w := by ring
        linarith
      exact le_of_mul_le_mul_right (by linarith) hW
    have hfl : ((512 * h / w : ℕ):ℤ) - 1 ≤ ⌊r⌋ := by
      rw [Int.le_floor]
      push_cast
      exact hrge
    have hfl0 : (0:ℤ) ≤ ⌊r⌋ := Int.floor_nonneg.2 hr0
    have h1 : ((512 * h / w : ℕ):ℤ) ≤ ⌊r⌋ + 1 := by linarith
    have h3 := Int.toNat_le_toNat h1
    rw [Int.toNat_add hfl0 (by norm_num), Int.toNat_natCast] at h3
    rw [pyInt_of_nonneg hr0]
    exact h3
  have hsh : scaledHeightF w h = (pyInt r).toNat := by
    rw [scaledHeightF, hrndh, ← hqdef, ← hsdef, ← hpdef, ← hrdef]
  rw [hsh]
  exact ⟨hub, hlb⟩

theorem rne_eq_low {x : ℚ} {f : ℤ} (h1 : (f:ℚ) ≤ x) (h2 : x < (f:ℚ) + 1/2) :
    rne x = f := by
  have hf : ⌊x⌋ = f := Int.floor_eq_iff.2 ⟨h1, by linarith⟩
  unfold rne
  rw [hf, if_pos (by linarith)]

theorem rnd_eq_concrete {q : ℚ} {e m : ℤ} (hq0 : 0 < q)
    (hlow : (2:ℚ) ^ e ≤ q) (hhigh : q < (2:ℚ) ^ (e + 1))
    (hm : rne (q * 2 ^ ((52:ℤ) - e)) = m) :
    rnd q = (m:ℚ) * 2 ^ (e - 52) := by
  have hlog : Int.log 2 q = e := by
    have h1 : e ≤ Int.log 2 q := (Int.zpow_le_iff_le_log (by norm_num) hq0).1 hlow
    have h2 : Int.log 2 q < e + 1 := (Int.lt_zpow_iff_log_lt (by norm_num) hq0).1 hhigh
    omega
  rw [rnd, if_neg hq0.ne', hlog, hm]

/-- Concrete binary64 evaluation, matching CPython bit for bit:
`512 / 49` rounds to `5882252574524729 × 2⁻⁴⁹`. -/
theorem rnd_512_div_49 : rnd ((512:ℚ) / 49) = 5882252574524729 / 562949953421312 := by
  have h : rnd ((512:ℚ) / 49) = ((5882252574524729:ℤ):ℚ) * 2 ^ ((3:ℤ) - 52) := by
    apply rnd_eq_concrete (by norm_num) (by norm_num) (by norm_num)
    have hx : ((512:ℚ)/49) * 2 ^ ((52:ℤ) - 3) = 288230376151711744/49 := by norm_num
    rw [hx]
    apply rne_eq_low <;> norm_num
  rw [h]
  norm_num

/-- Concrete binary64 evaluation: `49 * (512/49)` rounds to
`9007199254740991 × 2⁻⁴⁴ = 511.99999999999997…`, strictly below `512`. -/
theorem rnd_49_mul : rnd ((49:ℚ) * (5882252574524729 / 562949953421312))
    = 9007199254740991 / 17592186044416 := by
  have h : rnd ((49:ℚ) * (5882252574524729 / 562949953421312))
      = ((9007199254740991:ℤ):ℚ) * 2 ^ ((8:ℤ) - 52) := by
    apply rnd_eq_concrete (by norm_num) (by norm_num) (by norm_num)
    have hx : ((49:ℚ) * (5882252574524729 / 562949953421312)) * 2 ^ ((52:ℤ) - 8)
        = 288230376151711721/32 := by norm_num
    rw [hx]
    apply rne_eq_low <;> norm_num
  rw [h]
  norm_num

/-- The float height computation at a 49 × 49 source: CPython computes
`int(49 * (512/49)) == 511`, not the exact 512. -/
theorem scaledHeightF_49 : scaledHeightF 49 49 = 511 := by
  have hc : (((49:ℕ)):ℚ) = (49:ℚ) := by norm_num
  have h1 : rnd (((49:ℕ):ℚ)) = (49:ℚ) := by
    rw [hc]
    have := rnd_natCast (n := 49) (by norm_num)
    rwa [hc] at this
  rw [scaledHeightF, h1, hc, rnd_512_div_49, rnd_49_mul,
    pyInt_of_nonneg (by norm_num)]
  have hfl : ⌊(9007199254740991:ℚ) / 17592186044416⌋ = 511 :=
    Int.floor_eq_iff.2 ⟨by norm_num, by norm_num⟩
  rw [hfl]
  rfl

/-! ## Structural lemmas about normalize and compose -/

theorem resize_width (img : PILImage) (w hgt : ℕ) : (resize img w hgt).width = w := by
  rw [resize]
  split_ifs with h
  · exact h.1
  · rfl

theorem resize_height (img : PILImage) (w hgt : ℕ) : (resize img w hgt).height = hgt := by
  rw [resize]
  split_ifs with h
  · exact h.2
  · rfl

theorem resize_self {img : PILImage} {w hgt : ℕ} (h1 : img.width = w)
    (h2 : img.height = hgt) : resize img w hgt = img := by
  rw [resize, if_pos ⟨h1, h2⟩]

theorem normalizeImage_of_ne (img : PILImage) (h : img.width ≠ 512) :
    normalizeImage img
      = (resize img 512 (scaledHeightF img.width img.height / 8 * 8), true) := by
  rw [normalizeImage, if_pos h]

theorem normalizeImage_of_eq (img : PILImage) (h : img.width = 512) :
    normalizeImage img = (img, false) := by
  rw [normalizeImage, if_neg (by simpa using h)]

/-- Normalization always yields a width-512 image: the set of normalized
images is exactly the set of width-512 images (each of which normalize
leaves untouched). -/
theorem normalizeImage_width (img : PILImage) : (normalizeImage img).1.width = 512 := by
  by_cases h : img.width = 512
  · rw [normalizeImage_of_eq img h]
    exact h
  · rw [normalizeImage_of_ne img h]
    exact resize_width _ _ _

theorem composeStep_combined_width (img : PILImage) :
    (composeStep img).1.width = img.width * 2 := rfl

theorem composeStep_combined_height (img : PILImage) :
    (composeStep img).1.height = img.height := rfl

theorem composeStep_mask (img : PILImage) :
    (composeStep img).2.1 = maskFromArray img.width img.height := rfl

theorem composeStep_pipeWidth (img : PILImage) :
    (composeStep img).2.2.1 = img.width * 2 := rfl

theorem composeStep_pipeHeight (img : PILImage) :
    (composeStep img).2.2.2 = img.height := rfl

/-- Line 65 re-resizes to `(512, int(512 * height / width))`; when the
incoming width is already 512 the target equals the current size, Pillow's
short-circuit returns the image itself, and the paste is verbatim.  The
height bound keeps the integer exactly representable in binary64. -/
theorem line65_height {h : ℕ} (hh : h ≤ 2 ^ 52) :
    (pyInt (rnd (((512 * h : ℕ) : ℚ) / (((512:ℕ)) : ℚ)))).toNat = h := by
  have hq : ((512 * h : ℕ) : ℚ) / (((512:ℕ)) : ℚ) = ((h:ℕ):ℚ) := by
    push_cast
    field_simp
  rw [hq, rnd_natCast hh, pyInt_of_nonneg (by positivity), Int.floor_natCast,
    Int.toNat_natCast]

theorem composeStep_combined_of_width512 (img : PILImage) (hw : img.width = 512)
    (hh : img.height ≤ 2 ^ 52) :
    (composeStep img).1 = paste (imageNew (img.width * 2) img.height) img := by
  show paste (imageNew (img.width * 2) img.height)
      (resize img 512 ((pyInt (rnd (((512 * img.height : ℕ) : ℚ) / (img.width : ℚ)))).toNat))
    = paste (imageNew (img.width * 2) img.height) img
  congr 1
  have ht : (pyInt (rnd (((512 * img.height : ℕ) : ℚ) / (img.width : ℚ)))).toNat
      = img.height := by
    rw [hw]
    exact line65_height hh
  rw [ht]
  exact resize_self hw rfl

/-! ## Claim theorems -/

/-- C1: for every normalized image — the outputs of normalize are exactly
the width-512 images (`normalizeImage_width`) — of size (W, H), the compose
step produces a composite of size (2W, H) with the normalized image pasted
verbatim at the origin of the left half, and a mask of exactly the same
pixel dimensions whose pixels are 0 on columns [0, W) and 255 on columns
[W, 2W).  The height bound marks the binary64-exact domain of the model. -/
theorem C1_compose_diptych (img : PILImage) (hW : img.width = 512)
    (hH : img.height ≤ 2 ^ 52) :
    (composeStep img).1.width = 2 * img.width ∧
    (composeStep img).1.height = img.height ∧
    (∀ x y, x < img.width → y < img.height →
      (composeStep img).1.pixel x y = img.pixel x y) ∧
    (composeStep img).2.1.width = (composeStep img).1.width ∧
    (composeStep img).2.1.height = (composeStep img).1.height ∧
    (∀ x y, x < img.width → (composeStep img).2.1.pixel x y = 0) ∧
    (∀ x y, img.width ≤ x → x < 2 * img.width → (composeStep img).2.1.pixel x y = 255) := by
  have hcomb := composeStep_combined_of_width512 img hW hH
  refine ⟨?_, ?_, ?_, ?_, ?_, ?_, ?_⟩
  · rw [composeStep_combined_width, Nat.mul_comm]
  · rw [composeStep_combined_height]
  · intro x y hx hy
    rw [hcomb]
    exact if_pos ⟨hx, hy⟩
  · rw [composeStep_mask, composeStep_combined_width]
    rfl
  · rw [composeStep_mask, composeStep_combined_height]
    rfl
  · intro x y hx
    rw [composeStep_mask]
    exact if_neg (not_le.2 hx)
  · intro x y hx _
    rw [composeStep_mask]
    exact if_pos hx

theorem C1_compose_diptych_witness :
    (ex512x16.width = 512 ∧ ex512x16.height ≤ 2 ^ 52) ∧
    ((composeStep ex512x16).1.width = 2 * ex512x16.width ∧
      (composeStep ex512x16).1.height = ex512x16.height ∧
      (∀ x y, x < ex512x16.width → y < ex512x16.height →
        (composeStep ex512x16).1.pixel x y = ex512x16.pixel x y) ∧
      (composeStep ex512x16).2.1.width = (composeStep ex512x16).1.width ∧
      (composeStep ex512x16).2.1.height = (composeStep ex512x16).1.height ∧
      (∀ x y, x < ex512x16.width → (composeStep ex512x16).2.1.pixel x y = 0) ∧
      (∀ x y, ex512x16.width ≤ x → x < 2 * ex512x16.width →
        (composeStep ex512x16).2.1.pixel x y = 255)) :=
  ⟨⟨rfl, by decide⟩, C1_compose_diptych ex512x16 rfl (by decide)⟩

/-- C2 (counterexample): at a 49 × 49 source the code's binary64 height is
`int(49 * (512/49)) = 511`, floored to 504; the claim's exact formula
`⌊49·512/49⌋ = 512` floors to 512.  The claim as stated is false. -/
theorem C2_counterexample_49x49 :
    ex49.width ≠ 512 ∧
    (normalizeImage ex49).1.height = 504 ∧
    ex49.height * 512 / ex49.width / 8 * 8 = 512 ∧
    (504 : ℕ) ≠ 512 := by
  refine ⟨by decide, ?_, by decide, by decide⟩
  rw [normalizeImage_of_ne ex49 (by decide)]
  show (resize ex49 512 (scaledHeightF 49 49 / 8 * 8)).height = 504
  rw [resize_height, scaledHeightF_49]

/-- C2 (amended): for every source image of positive width ≠ 512 and
realistic height, normalize yields width exactly 512 and emits the resize
warning; the height is the binary64 truncation of `h * (512/w)` floored to
a multiple of 8, and that truncation equals the exact `⌊512h/w⌋` or falls
exactly one below it. -/
theorem C2_amended_normalize (img : PILImage) (hw : 0 < img.width)
    (h512 : img.width ≠ 512) (hhB : img.height ≤ 2 ^ 24) :
    (normalizeImage img).1.width = 512 ∧
    (normalizeImage img).2 = true ∧
    (normalizeImage img).1.height = scaledHeightF img.width img.height / 8 * 8 ∧
    (scaledHeightF img.width img.height = 512 * img.height / img.width ∨
      scaledHeightF img.width img.height + 1 = 512 * img.height / img.width) := by
  have hb := scaledHeightF_bounds img.width img.height hw hhB
  rw [normalizeImage_of_ne img h512]
  exact ⟨resize_width _ _ _, rfl, resize_height _ _ _, by omega⟩

theorem C2_amended_normalize_witness :
    (0 < ex49.width ∧ ex49.width ≠ 512 ∧ ex49.height ≤ 2 ^ 24) ∧
    ((normalizeImage ex49).1.width = 512 ∧
      (normalizeImage ex49).2 = true ∧
      (normalizeImage ex49).1.height = scaledHeightF ex49.width ex49.height / 8 * 8 ∧
      (scaledHeightF ex49.width ex49.height = 512 * ex49.height / ex49.width ∨
        scaledHeightF ex49.width ex49.height + 1 = 512 * ex49.height / ex49.width)) :=
  ⟨⟨by decide, by decide, by decide⟩,
    C2_amended_normalize ex49 (by decide) (by decide) (by decide)⟩

/-- C3 (counterexample): a 512 × 7 source skips normalization, so the
composite height is 7 — not a multiple of 8 — refuting the invariant in the
width-already-512 path. -/
theorem C3_counterexample_512x7 :
    ex512x7.width = 512 ∧
    (composeStep (normalizeImage ex512x7).1).1.height = 7 ∧
    ¬ (8 ∣ (composeStep (normalizeImage ex512x7).1).1.height) := by
  have h7 : (composeStep (normalizeImage ex512x7).1).1.height = 7 := by
    rw [normalizeImage_of_eq ex512x7 rfl]
    rfl
  refine ⟨rfl, h7, ?_⟩
  rw [h7]
  decide

/-- C3 (amended): the composite width is always exactly double the
post-normalization width; the composite height is a multiple of 8 for
every source image whose width differs from 512, but when the width is
already 512 the height is the unchanged source height. -/
theorem C3_amended_composite_dims (img : PILImage) (h : img.width ≠ 512) :
    (composeStep (normalizeImage img).1).1.width = 2 * (normalizeImage img).1.width ∧
    8 ∣ (composeStep (normalizeImage img).1).1.height := by
  constructor
  · rw [composeStep_combined_width, Nat.mul_comm]
  · rw [composeStep_combined_height, normalizeImage_of_ne img h]
    show 8 ∣ (resize img 512 (scaledHeightF img.width img.height / 8 * 8)).height
    rw [resize_height]
    exact ⟨scaledHeightF img.width img.height / 8, by ring⟩

theorem C3_amended_composite_dims_witness :
    ex49.width ≠ 512 ∧
    ((composeStep (normalizeImage ex49).1).1.width = 2 * (normalizeImage ex49).1.width ∧
      8 ∣ (composeStep (normalizeImage ex49).1).1.height) :=
  ⟨by decide, C3_amended_composite_dims ex49 (by decide)⟩

/-- C4: buildInstruction is the pure template function: its output is
always the fixed diptych sentence followed by the prompt verbatim (as
string data: template characters then prompt characters, so the prompt is
a literal suffix), with no validation; the empty prompt yields exactly the
template sentence. -/
theorem C4_buildInstruction_pure (p : String) :
    buildInstruction p = templateSentence ++ p ∧
    (buildInstruction p).length = templateSentence.length + p.length ∧
    (buildInstruction p).data = templateSentence.data ++ p.data ∧
    List.IsSuffix p.data (buildInstruction p).data ∧
    buildInstruction emptyPrompt = templateSentence := by
  refine ⟨rfl, ?_, ?_, ?_, ?_⟩
  · rw [buildInstruction, String.length_append]
  · rw [buildInstruction, String.data_append]
  · exact ⟨templateSentence.data, (String.data_append _ _).symm⟩
  · rw [buildInstruction, emptyPrompt, String.append_empty]

/-- C5: resolveSeed returns the supplied seed unchanged when randomize is
false; when randomize is true it returns the randint draw — independent of
the supplied seed — which lies in [0, 2^31 − 1] by the randint contract,
MAX_SEED being exactly 2^31 − 1. -/
theorem C5_resolveSeed_contract (s₁ s₂ draw : ℕ) (hdraw : draw ≤ MAX_SEED) :
    resolveSeed s₁ false draw = s₁ ∧
    resolveSeed s₁ true draw = resolveSeed s₂ true draw ∧
    resolveSeed s₁ true draw = draw ∧
    resolveSeed s₁ true draw ≤ 2 ^ 31 - 1 ∧
    MAX_SEED = 2 ^ 31 - 1 := by
  refine ⟨rfl, rfl, rfl, ?_, by norm_num [MAX_SEED]⟩
  show draw ≤ 2 ^ 31 - 1
  have : MAX_SEED = 2 ^ 31 - 1 := by norm_num [MAX_SEED]
  omega

theorem C5_resolveSeed_contract_witness :
    3 ≤ MAX_SEED ∧
    (resolveSeed 5 false 3 = 5 ∧
      resolveSeed 5 true 3 = resolveSeed 7 true 3 ∧
      resolveSeed 5 true 3 = 3 ∧
      resolveSeed 5 true 3 ≤ 2 ^ 31 - 1 ∧
      MAX_SEED = 2 ^ 31 - 1) :=
  ⟨by decide, C5_resolveSeed_contract 5 7 3 (by decide)⟩

/-- C6: when the pipeline output has exactly the requested size (2W, H),
the post-processing crop uses bounds (W, 0, 2W, H) and the result is
pixel-for-pixel the right half (columns [W, 2W)). -/
theorem C6_crop_right_half (image : PILImage) (W H : ℕ)
    (hw : image.width = 2 * W) (hh : image.height = H) :
    cropRightHalf image = crop image W 0 (2 * W) H ∧
    (cropRightHalf image).width = W ∧
    (cropRightHalf image).height = H ∧
    (∀ x y, (cropRightHalf image).pixel x y = image.pixel (x + W) y) := by
  have hW2 : image.width / 2 = W := by
    rw [hw]
    exact Nat.mul_div_cancel_left W (by norm_num)
  refine ⟨?_, ?_, ?_, ?_⟩
  · rw [cropRightHalf, hW2, hw, hh]
  · show image.width - image.width / 2 = W
    omega
  · show image.height - 0 = H
    omega
  · intro x y
    show image.pixel (x + image.width / 2) (y + 0) = image.pixel (x + W) y
    rw [hW2, Nat.add_zero]

theorem C6_crop_right_half_witness :
    (exOut4x2.width = 2 * 2 ∧ exOut4x2.height = 2) ∧
    (cropRightHalf exOut4x2 = crop exOut4x2 2 0 (2 * 2) 2 ∧
      (cropRightHalf exOut4x2).width = 2 ∧
      (cropRightHalf exOut4x2).height = 2 ∧
      (∀ x y, (cropRightHalf exOut4x2).pixel x y = exOut4x2.pixel (x + 2) y)) :=
  ⟨⟨rfl, rfl⟩, C6_crop_right_half exOut4x2 2 2 rfl rfl⟩

/-- C7: the save step creates the output directory when absent and names
the file `result_{N}.png` with N the number of directory entries at call
time (0 for a freshly created directory); the file then exists in the
directory. -/
theorem C7_save_file_naming (l : List String) :
    (saveStep (some l)).2 = "result_" ++ toString l.length ++ ".png" ∧
    makedirs none = [] ∧
    (saveStep none).2 = resultName 0 ∧
    (saveStep (some l)).1 = saveImage l (resultName l.length) ∧
    (saveStep (some l)).2 ∈ (saveStep (some l)).1 := by
  refine ⟨rfl, rfl, rfl, rfl, ?_⟩
  show resultName l.length ∈ saveImage l (resultName l.length)
  rw [saveImage]
  split_ifs with h
  · exact h
  · exact List.mem_append_right _ (List.mem_singleton.2 rfl)

/-- A pipeline-call fault leaves the directory untouched. -/
theorem inferCall_fault {E P : Type} (ext : Externals E P) (pipe : P)
    (args : PipeArgs) (dir : Option (List String)) (e : E)
    (h : (inferCall ext pipe args dir).2 = Except.error e) :
    (inferCall ext pipe args dir).1 = dir := by
  unfold inferCall at h ⊢
  cases hp : ext.pipeCall pipe args with
  | error e1 => rfl
  | ok image =>
    rw [hp] at h
    change Except.ok (cropRightHalf image, args.seed) = Except.error e at h
    exact Except.noConfusion h

/-- A LoRA-loading or pipeline-call fault leaves the directory untouched. -/
theorem inferLoaded_fault {E P : Type} (ext : Externals E P) (pipe : P)
    (args : PipeArgs) (dir : Option (List String)) (e : E)
    (h : (inferLoaded ext pipe args dir).2 = Except.error e) :
    (inferLoaded ext pipe args dir).1 = dir := by
  unfold inferLoaded at h ⊢
  cases hl : ext.load_lora_weights pipe with
  | error e1 => rfl
  | ok pipe2 =>
    rw [hl] at h
    exact inferCall_fault ext pipe2 args dir e h

/-- C8: whenever `infer` faults before the save step — pipeline
construction, LoRA loading, or the pipeline call — the output directory is
returned exactly as it was: no result or placeholder file is written, and
the fault itself is the call's outcome (propagated uncaught; each external
operation is consulted at most once, so there is no retry). -/
theorem C8_fault_leaves_directory {E P : Type} (ext : Externals E P)
    (edit_images : PILImage) (prompt : String) (seed : ℕ) (randomize_seed : Bool)
    (width height : ℕ) (guidance_scale : ℚ) (num_inference_steps draw : ℕ)
    (dir : Option (List String)) (e : E)
    (hfault : (infer ext edit_images prompt seed randomize_seed width height
        guidance_scale num_inference_steps draw dir).2 = Except.error e) :
    (infer ext edit_images prompt seed randomize_seed width height
        guidance_scale num_inference_steps draw dir).1 = dir := by
  rw [infer] at hfault ⊢
  cases hc : ext.from_pretrained with
  | error e1 => rfl
  | ok pipe =>
    rw [hc] at hfault
    exact inferLoaded_fault ext pipe _ dir e hfault

theorem C8_fault_leaves_directory_witness :
    (infer extFail ex512x16 emptyPrompt 666 false 1024 1024 50 28 3 none).2
        = Except.error 7 ∧
    (infer extFail ex512x16 emptyPrompt 666 false 1024 1024 50 28 3 none).1 = none :=
  ⟨rfl, C8_fault_leaves_directory extFail ex512x16 emptyPrompt 666 false 1024 1024
    50 28 3 none 7 rfl⟩

/-- C9: the width and height arguments of `infer` are dead: two calls
differing only in them produce the identical composite, mask and pipeline
dimensions; the pipeline width is always exactly 1024 = 2 × 512 and the
pipeline height is always the normalized image's height. -/
theorem C9_width_height_ignored (edit_images : PILImage) (w₁ h₁ w₂ h₂ : ℕ) :
    infer_prep edit_images w₁ h₁ = infer_prep edit_images w₂ h₂ ∧
    (infer_prep edit_images w₁ h₁).2.2.1 = 1024 ∧
    (infer_prep edit_images w₁ h₁).2.2.2 = (normalizeImage edit_images).1.height := by
  refine ⟨rfl, ?_, rfl⟩
  show (composeStep (normalizeImage edit_images).1).2.2.1 = 1024
  rw [composeStep_pipeWidth, normalizeImage_width]

/-- C10: for any source image of realistic size whose width differs from
512 and whose aspect ratio exceeds 64 (w > 64h), the computed height is 0:
normalize resizes to 512 × 0 with no guard against the degenerate output. -/
theorem C10_zero_height_no_guard (img : PILImage) (h512 : img.width ≠ 512)
    (hwB : img.width ≤ 2 ^ 24) (hhB : img.height ≤ 2 ^ 24)
    (hratio : 64 * img.height < img.width) :
    (normalizeImage img).1.width = 512 ∧
    (normalizeImage img).1.height = 0 ∧
    (normalizeImage img).2 = true := by
  have hw : 0 < img.width := by omega
  have hb := (scaledHeightF_bounds img.width img.height hw hhB).1
  have hlt : 512 * img.height < 8 * img.width := by omega
  have hE : 512 * img.height / img.width < 8 :=
    (Nat.div_lt_iff_lt_mul hw).2 (by omega)
  have ht0 : scaledHeightF img.width img.height / 8 * 8 = 0 := by omega
  rw [normalizeImage_of_ne img h512]
  exact ⟨resize_width _ _ _, by rw [resize_height, ht0], rfl⟩

theorem C10_zero_height_no_guard_witness :
    (ex1024x10.width ≠ 512 ∧ ex1024x10.width ≤ 2 ^ 24 ∧ ex1024x10.height ≤ 2 ^ 24 ∧
      64 * ex1024x10.height < ex1024x10.width) ∧
    ((normalizeImage ex1024x10).1.width = 512 ∧
      (normalizeImage ex1024x10).1.height = 0 ∧
      (normalizeImage ex1024x10).2 = true) :=
  ⟨⟨by decide, by decide, by decide, by decide⟩,
    C10_zero_height_no_guard ex1024x10 (by decide) (by decide) (by decide) (by decide)⟩

end ICEdit
